import Mathlib

/-!
Verification development for the RAG ingestion/retrieval core of the
repository (files app/ingestion.py, app/retriever.py, app/ui.py).

The Python code is shallowly embedded: the Elasticsearch client is
modelled as an explicit state (an association list of index names to
mappings) together with an abstract search backend function, metadata
dictionaries are association lists from string keys to scalar values,
and every fallible external call is modelled with Except.
-/

namespace RagCore

/-- A scalar metadata value, as stored in a chunk's metadata dict
(strings such as paths and urls, and integers such as chunk_id / page). -/
inductive MetaValue where
  | str : String → MetaValue
  | nat : Nat → MetaValue
deriving DecidableEq

/-- A chunk / document metadata dict: association list, most recent
assignment first. -/
abbrev Metadata := List (String × MetaValue)

/-- Dict lookup: first binding of the key wins (mirrors Python dict
reads after `mset` writes). -/
def mfind : Metadata → String → Option MetaValue
  | [], _ => none
  | (k, v) :: rest, key => if key = k then some v else mfind rest key

/-- Dict assignment chunk.metadata[key] = v, modelled by prepending the
new binding (lookup takes the most recent one). -/
def mset (m : Metadata) (k : String) (v : MetaValue) : Metadata :=
  (k, v) :: m

/-- os.path.basename for POSIX paths: everything after the last slash. -/
def basename (path : String) : String :=
  String.mk ((path.data.reverse.takeWhile (fun c => c ≠ '/')).reverse)

/- ------------------------------------------------------------------
   Index mapping created by app/ingestion.py, create_index_if_not_exists
   (lines 136-158).
   ------------------------------------------------------------------ -/

/-- Parameters of the dense_vector field type in the mapping. -/
structure DenseVectorSpec where
  dims : Nat
  index : Bool
  similarity : String
deriving DecidableEq

/-- An Elasticsearch field type, restricted to the types the source
mapping uses. -/
inductive FieldType where
  | textType : FieldType
  | dense_vector : DenseVectorSpec → FieldType
  | rank_features : FieldType
  | objectType : List (String × String) → FieldType
deriving DecidableEq

/-- An index mapping: top-level properties (field name, field type). -/
structure Mapping where
  properties : List (String × FieldType)
deriving DecidableEq

/-- The literal `mappings` dict built in create_index_if_not_exists
(app/ingestion.py lines 136-158). -/
def indexMappings : Mapping :=
  { properties := [
      ("text", FieldType.textType),
      ("vector", FieldType.dense_vector { dims := 384, index := true, similarity := "cosine" }),
      ("text_expansion", FieldType.rank_features),
      ("metadata", FieldType.objectType [
        ("filename", "keyword"),
        ("drive_url", "keyword"),
        ("chunk_id", "integer"),
        ("page", "integer")])] }

/-- The Elasticsearch cluster's index table: index name to mapping. -/
abbrev ESIndices := List (String × Mapping)

/-- client.indices.exists(index=name). -/
def indicesExists (s : ESIndices) (name : String) : Bool :=
  s.any (fun p => p.1 = name)

/-- An index-admin operation issued to the storage backend. -/
inductive AdminOp where
  | createOp : String → Mapping → AdminOp
  | deleteOp : String → AdminOp
deriving DecidableEq

/-- app/ingestion.py create_index_if_not_exists (lines 127-161): checks
existence; if present, returns immediately; otherwise issues a single
create with indexMappings. Returns the new cluster state together with
the list of admin operations issued. -/
def create_index_if_not_exists (s : ESIndices) (name : String) : ESIndices × List AdminOp :=
  if indicesExists s name then (s, [])
  else (s ++ [(name, indexMappings)], [AdminOp.createOp name indexMappings])

/- ------------------------------------------------------------------
   Hybrid retriever, app/retriever.py HybridRetriever._get_relevant_documents
   (lines 47-114).
   ------------------------------------------------------------------ -/

/-- A text_expansion (ELSER sparse) query clause. -/
structure TextExpansionClause where
  field : String
  model_id : String
  model_text : String
deriving DecidableEq

/-- A query clause as built by the retriever: either a sparse
text_expansion clause or a lexical match clause. -/
inductive QueryClause where
  | textExpansion : TextExpansionClause → QueryClause
  | matchClause : String → String → QueryClause
deriving DecidableEq

/-- The knn (dense vector) search component. -/
structure KnnClause where
  field : String
  query_vector : List Int
  k : Nat
  num_candidates : Nat
deriving DecidableEq

/-- The rrf rank configuration. -/
structure RrfConfig where
  rank_constant : Nat
  window_size : Nat
deriving DecidableEq

/-- The search call issued by client.search, with the keyword arguments
the retriever may pass (absent arguments are none). -/
structure SearchRequest where
  index : String
  query : Option QueryClause
  knn : Option KnnClause
  sub_searches : Option (List QueryClause)
  rank : Option RrfConfig
  size : Nat
deriving DecidableEq

/-- The elser_query dict built at app/retriever.py lines 56-63. -/
def elserQuery (query : String) : QueryClause :=
  QueryClause.textExpansion
    { field := "elser_embedding_field", model_id := "elser", model_text := query }

/-- The search request built by _get_relevant_documents before calling
client.search (app/retriever.py lines 66-100): elser-only branch when
mode == "elser_only", hybrid branch otherwise. The embedding model is
an abstract function from query text to a dense vector. -/
def buildSearchRequest (embed : String → List Int) (indexName : String)
    (k : Nat) (mode : String) (query : String) : SearchRequest :=
  if mode = "elser_only" then
    { index := indexName, query := some (elserQuery query), knn := none,
      sub_searches := none, rank := none, size := k }
  else
    { index := indexName, query := none,
      knn := some { field := "vector_field", query_vector := embed query,
                    k := k, num_candidates := 50 },
      sub_searches := some [QueryClause.matchClause "text_content" query, elserQuery query],
      rank := some { rank_constant := 20, window_size := 100 },
      size := k }

/-- The field names of the Collection that a search request references
(text_expansion field, knn field, match field). -/
def QueryClause.referencedField : QueryClause → String
  | QueryClause.textExpansion te => te.field
  | QueryClause.matchClause f _ => f

/-- All mapping field names referenced by a search request. -/
def SearchRequest.referencedFields (r : SearchRequest) : List String :=
  (match r.knn with
   | some kq => [kq.field]
   | none => []) ++
  (match r.query with
   | some q => [q.referencedField]
   | none => []) ++
  (match r.sub_searches with
   | some qs => qs.map QueryClause.referencedField
   | none => [])

/-- A hit returned by the storage backend: the _source fields the
retriever reads (lines 103-109). -/
structure Hit where
  text_content : String
  metadata : Metadata
deriving DecidableEq

/-- A passage returned to the caller (langchain Document). -/
structure Document where
  page_content : String
  metadata : Metadata
deriving DecidableEq

/-- _get_relevant_documents (app/retriever.py lines 47-114): builds the
mode-dependent request, calls the backend inside try/except, converts
hits to Documents, and converts any backend failure to an empty list. -/
def get_relevant_documents (backend : SearchRequest → Except String (List Hit))
    (embed : String → List Int) (indexName : String)
    (k : Nat) (mode : String) (query : String) : List Document :=
  match backend (buildSearchRequest embed indexName k mode query) with
  | Except.ok hits => hits.map (fun h => { page_content := h.text_content, metadata := h.metadata })
  | Except.error _ => []

/-- The mode_map dict of app/ui.py (lines 30-33): maps the UI radio
label to the mode string sent to the API. -/
def mode_map : List (String × String) :=
  [("Hybrid (ELSER + Dense + BM25)", "hybrid"), ("ELSER-only", "elser")]

/-- The hybrid-mode request shape as the specification describes it:
one search call with exactly three ranking components (a knn query on
the dense-vector field with candidate pool 50, a lexical match on the
text field, a sparse text-expansion query), fused by RRF with
rank_constant 20 and window_size 100, truncated to the top k. -/
def hybridRequestSpec (embed : String → List Int) (indexName : String)
    (k : Nat) (query : String) : SearchRequest :=
  { index := indexName, query := none,
    knn := some { field := "vector_field", query_vector := embed query,
                  k := k, num_candidates := 50 },
    sub_searches := some [QueryClause.matchClause "text_content" query, elserQuery query],
    rank := some { rank_constant := 20, window_size := 100 },
    size := k }

/-- The elser_only request shape as the specification describes it: a
single sparse text-expansion query requesting the top k documents, with
no knn component and no lexical component. -/
def elserOnlyRequestSpec (indexName : String) (k : Nat) (query : String) : SearchRequest :=
  { index := indexName, query := some (elserQuery query), knn := none,
    sub_searches := none, rank := none, size := k }

/- ------------------------------------------------------------------
   Document loading, app/ingestion.py lines 50-103.
   A loader's attempt to load one file is modelled as an Except: ok with
   the loaded documents, or error with the raised exception's message.
   ------------------------------------------------------------------ -/

/-- A raw document produced by a loader: page content plus the loader's
provenance metadata. -/
structure RawDocument where
  content : List Char
  metadata : Metadata
deriving DecidableEq

/-- Outcome of loading one file (or one whole remote source). -/
abbrev FileLoadResult := Except String (List RawDocument)

/-- The per-file loop body of load_docs_from_local_folder (lines 64-75):
each file is loaded inside its own try/except; on success its documents
are appended, on failure the file is skipped and the loop continues. -/
def loadLocalFiles : List (String × FileLoadResult) → List RawDocument
  | [] => []
  | f :: rest =>
    (match f.2 with
     | Except.ok ds => ds
     | Except.error _ => []) ++ loadLocalFiles rest

/-- app/ingestion.py load_docs_from_local_folder (lines 50-78): if the
data directory is missing (dir = none) it returns [] and skips local
ingestion; otherwise it filters the listing to .pdf files and loads each
with per-file error recovery. -/
def load_docs_from_local_folder (dir : Option (List (String × FileLoadResult))) : List RawDocument :=
  match dir with
  | none => []
  | some files => loadLocalFiles (files.filter (fun f => f.1.endsWith ".pdf"))

/-- app/ingestion.py load_docs_from_gdrive (lines 81-103): if the
credentials file is missing it returns []; otherwise the whole
GoogleDriveLoader.load() call runs inside one try/except, returning its
documents on success and [] on any failure. -/
def load_docs_from_gdrive (credsPresent : Bool) (loadResult : FileLoadResult) : List RawDocument :=
  if credsPresent then
    match loadResult with
    | Except.ok ds => ds
    | Except.error _ => []
  else []

/-- The loading phase of main (app/ingestion.py lines 169-171):
all_docs = local_docs + gdrive_docs. -/
def loadAllDocs (dir : Option (List (String × FileLoadResult)))
    (credsPresent : Bool) (gdriveResult : FileLoadResult) : List RawDocument :=
  load_docs_from_local_folder dir ++ load_docs_from_gdrive credsPresent gdriveResult

/- ------------------------------------------------------------------
   Chunking, app/ingestion.py chunk_documents (lines 106-125).
   ------------------------------------------------------------------ -/

/-- Modelled from the spec: the text splitting itself is performed by
the third-party langchain RecursiveCharacterTextSplitter (instantiated
at app/ingestion.py lines 108-112 with chunk_size, chunk_overlap and
length_function=len), whose code is not part of this repository. Per
spec §4.1 it is "a deterministic, length-based splitting algorithm"
with chunk_size = max characters per chunk and chunk_overlap =
characters shared between consecutive chunks of the same document:
a sliding character window of width S advancing by S - O. The fuel
argument (first) bounds recursion depth; splitText supplies fuel
t.length, which suffices whenever O < S. -/
def splitTextAux : Nat → Nat → Nat → List Char → List (List Char)
  | 0, _, _, t => [t]
  | Nat.succ fuel, S, O, t =>
    if t.length ≤ S then [t]
    else t.take S :: splitTextAux fuel S O (t.drop (S - O))

/-- Modelled from the spec: split one document's text into overlapping
windows of at most S characters with O characters shared between
consecutive windows (see splitTextAux). -/
def splitText (S O : Nat) (t : List Char) : List (List Char) :=
  splitTextAux t.length S O t

/-- A chunk: a bounded text window derived from one document, carrying
that document's (possibly enriched) metadata. -/
structure Chunk where
  text : List Char
  metadata : Metadata
deriving DecidableEq

/-- text_splitter.split_documents(docs) (line 113): each document is
split independently (splitting never crosses document boundaries) and
every derived chunk carries its source document's metadata. -/
def splitDocuments (S O : Nat) : List RawDocument → List Chunk
  | [] => []
  | d :: rest =>
    (splitText S O d.content).map (fun t => { text := t, metadata := d.metadata }) ++
      splitDocuments S O rest

/-- mfind m "source" branch of the normalization loop (lines 119-120):
if 'source' is in the metadata, set filename to its basename. -/
def addFilename (m : Metadata) : Metadata :=
  match mfind m "source" with
  | some (MetaValue.str s) => mset m "filename" (MetaValue.str (basename s))
  | _ => m

/-- Lines 122-123 of the normalization loop: if 'file_id' is in the
metadata, synthesize the Google Drive URL string (pure string
concatenation, no network call) and store it under 'drive_url'. -/
def addDriveUrl (m : Metadata) : Metadata :=
  match mfind m "file_id" with
  | some (MetaValue.str fid) =>
      mset m "drive_url" (MetaValue.str ("https://docs.google.com/document/d/" ++ fid ++ "/"))
  | _ => m

/-- One iteration of the enumerate loop at lines 117-123: assign
chunk_id := i, then derive filename from 'source' when present, then
derive drive_url from 'file_id' when present. -/
def normalizeChunk (i : Nat) (c : Chunk) : Chunk :=
  { text := c.text,
    metadata := addDriveUrl (addFilename (mset c.metadata "chunk_id" (MetaValue.nat i))) }

/-- The enumerate loop itself: number the chunks 0, 1, 2, ... in list
order and normalize each one's metadata. -/
def numberChunks : Nat → List Chunk → List Chunk
  | _, [] => []
  | i, c :: rest => normalizeChunk i c :: numberChunks (i + 1) rest

/-- app/ingestion.py chunk_documents (lines 106-125): split all
documents, then enumerate the concatenated chunk list, assigning
sequential chunk_id values and normalized metadata. -/
def chunk_documents (S O : Nat) (docs : List RawDocument) : List Chunk :=
  numberChunks 0 (splitDocuments S O docs)

/- ------------------------------------------------------------------
   Concrete values used to instantiate closed statements.
   ------------------------------------------------------------------ -/

/-- A zero embedding model, used to instantiate closed statements. -/
def embedZero : String → List Int := fun _ => []

/-- A storage backend that fails on every request. -/
def backendFail : SearchRequest → Except String (List Hit) :=
  fun _ => Except.error "connection refused"

/-- A cluster state in which the target index already exists. -/
def esW : ESIndices := [("rag-internship-demo", indexMappings)]

/-- A one-document corpus used to instantiate closed statements. -/
def docsW : List RawDocument :=
  [{ content := "abcde".toList, metadata := [("source", MetaValue.str "docs/a.pdf")] }]

/-- The first chunk chunk_documents produces from docsW with S = 3,
O = 1 (text "abc", chunk_id 0, filename "a.pdf"). -/
def chunkW : Chunk :=
  normalizeChunk 0 { text := "abc".toList, metadata := [("source", MetaValue.str "docs/a.pdf")] }

/-- A chunk whose metadata carries both a local source path and a
remote file identifier. -/
def chunkBoth : Chunk :=
  { text := "x".toList,
    metadata := [("source", MetaValue.str "dir/b.pdf"), ("file_id", MetaValue.str "F1")] }

/-- A chunk whose metadata carries a remote file identifier but no
source path. -/
def chunkNoSource : Chunk :=
  { text := "x".toList, metadata := [("file_id", MetaValue.str "F123")] }

end RagCore

namespace RagCore

/-- Unfolding lemma for splitTextAux at fuel zero. -/
theorem splitTextAux_zero (S O : Nat) (t : List Char) :
    splitTextAux 0 S O t = [t] := rfl

/-- Unfolding lemma for splitTextAux at successor fuel. -/
theorem splitTextAux_succ (fuel S O : Nat) (t : List Char) :
    splitTextAux (fuel + 1) S O t =
      if t.length ≤ S then [t]
      else t.take S :: splitTextAux fuel S O (t.drop (S - O)) := rfl

/-- Unfolding lemma for splitDocuments on the empty corpus. -/
theorem splitDocuments_nil (S O : Nat) : splitDocuments S O [] = [] := rfl

/-- Unfolding lemma for splitDocuments on a cons corpus. -/
theorem splitDocuments_cons (S O : Nat) (d : RawDocument) (rest : List RawDocument) :
    splitDocuments S O (d :: rest) =
      (splitText S O d.content).map (fun t => { text := t, metadata := d.metadata }) ++
        splitDocuments S O rest := rfl

/-- Unfolding lemma for numberChunks on a cons list. -/
theorem numberChunks_cons (n : Nat) (c : Chunk) (rest : List Chunk) :
    numberChunks n (c :: rest) = normalizeChunk n c :: numberChunks (n + 1) rest := rfl

/-- Looking up the key just assigned returns the assigned value. -/
theorem mfind_mset_self (m : Metadata) (k : String) (v : MetaValue) :
    mfind (mset m k v) k = some v := by
  simp [mfind, mset]

/-- Assigning one key leaves lookups of a different key unchanged. -/
theorem mfind_mset_ne (m : Metadata) (k k2 : String) (v : MetaValue) (h : k2 ≠ k) :
    mfind (mset m k v) k2 = mfind m k2 := by
  simp [mfind, mset, h]

/-- addFilename only ever writes the filename key. -/
theorem addFilename_preserves (m : Metadata) (k : String) (h : k ≠ "filename") :
    mfind (addFilename m) k = mfind m k := by
  unfold addFilename
  cases hs : mfind m "source" with
  | none => rfl
  | some v =>
    cases v with
    | str s => exact mfind_mset_ne m "filename" k _ h
    | nat n => rfl

/-- addDriveUrl only ever writes the drive_url key. -/
theorem addDriveUrl_preserves (m : Metadata) (k : String) (h : k ≠ "drive_url") :
    mfind (addDriveUrl m) k = mfind m k := by
  unfold addDriveUrl
  cases hs : mfind m "file_id" with
  | none => rfl
  | some v =>
    cases v with
    | str s => exact mfind_mset_ne m "drive_url" k _ h
    | nat n => rfl

/-- When the metadata carries a source path, addFilename assigns the
basename under the filename key. -/
theorem addFilename_of_source (m : Metadata) (s : String)
    (h : mfind m "source" = some (MetaValue.str s)) :
    addFilename m = mset m "filename" (MetaValue.str (basename s)) := by
  unfold addFilename
  rw [h]

/-- When the metadata carries a file_id, addDriveUrl assigns the
constructed url under the drive_url key. -/
theorem addDriveUrl_of_file_id (m : Metadata) (fid : String)
    (h : mfind m "file_id" = some (MetaValue.str fid)) :
    addDriveUrl m =
      mset m "drive_url" (MetaValue.str ("https://docs.google.com/document/d/" ++ fid ++ "/")) := by
  unfold addDriveUrl
  rw [h]

/-- Every normalized chunk's chunk_id is the enumeration index it was
assigned. -/
theorem chunkId_of_normalize (i : Nat) (c : Chunk) :
    mfind (normalizeChunk i c).metadata "chunk_id" = some (MetaValue.nat i) := by
  unfold normalizeChunk
  rw [addDriveUrl_preserves _ _ (by decide), addFilename_preserves _ _ (by decide),
    mfind_mset_self]

/-- The i-th element of the enumerate loop's output is the i-th input
chunk normalized with index n + i. -/
theorem numberChunks_getElem (l : List Chunk) :
    ∀ n i, (numberChunks n l)[i]? = (l[i]?).map (fun c => normalizeChunk (n + i) c) := by
  induction l with
  | nil => intro n i; simp [numberChunks]
  | cons c rest ih =>
    intro n i
    cases i with
    | zero => simp [numberChunks_cons]
    | succ j =>
      rw [numberChunks_cons, List.getElem?_cons_succ, List.getElem?_cons_succ, ih (n + 1) j]
      have e : n + 1 + j = n + (j + 1) := by omega
      rw [e]

/-- loadLocalFiles distributes over list append. -/
theorem loadLocalFiles_append (a b : List (String × FileLoadResult)) :
    loadLocalFiles (a ++ b) = loadLocalFiles a ++ loadLocalFiles b := by
  induction a with
  | nil => simp [loadLocalFiles]
  | cons f rest ih => simp [loadLocalFiles, ih, List.append_assoc]

/-- The head of a split is always the first window take S, provided
the fuel bound holds (or the text already fits in one window). -/
theorem splitTextAux_head (fuel S O : Nat) (t : List Char)
    (hf : t.length ≤ fuel ∨ t.length ≤ S) :
    (splitTextAux fuel S O t).head? = some (t.take S) := by
  cases fuel with
  | zero =>
    have hS : t.length ≤ S := by
      rcases hf with h1 | h1
      · omega
      · exact h1
    rw [splitTextAux_zero]
    simp [List.take_of_length_le hS]
  | succ f =>
    rw [splitTextAux_succ]
    by_cases h : t.length ≤ S
    · rw [if_pos h]
      simp [List.take_of_length_le h]
    · rw [if_neg h]
      rfl

/-- Adjacent windows of splitTextAux: every non-final window has length
exactly S and shares exactly O trailing/leading characters with the
next window. -/
theorem splitTextAux_adjacent (fuel : Nat) :
    ∀ (S O : Nat) (t : List Char), O < S → t.length ≤ fuel →
      ∀ i c d, (splitTextAux fuel S O t)[i]? = some c →
        (splitTextAux fuel S O t)[i + 1]? = some d →
        c.length = S ∧ d.take O = c.drop (S - O) ∧ (d.take O).length = O := by
  induction fuel with
  | zero =>
    intro S O t hO ht i c d hc hd
    rw [splitTextAux_zero, List.getElem?_cons_succ, List.getElem?_nil] at hd
    exact absurd hd (by simp)
  | succ fuel ih =>
    intro S O t hO ht i c d hc hd
    rw [splitTextAux_succ] at hc hd
    by_cases h : t.length ≤ S
    · rw [if_pos h, List.getElem?_cons_succ, List.getElem?_nil] at hd
      exact absurd hd (by simp)
    · rw [if_neg h] at hc hd
      cases i with
      | zero =>
        rw [List.getElem?_cons_zero] at hc
        obtain rfl : t.take S = c := Option.some.inj hc
        rw [List.getElem?_cons_succ] at hd
        have hlen : (t.drop (S - O)).length ≤ fuel := by
          rw [List.length_drop]; omega
        have hh := splitTextAux_head fuel S O (t.drop (S - O)) (Or.inl hlen)
        rw [List.head?_eq_getElem?, hd] at hh
        obtain rfl : d = (t.drop (S - O)).take S := Option.some.inj hh
        refine ⟨?_, ?_, ?_⟩
        · rw [List.length_take]; omega
        · rw [List.take_take, List.drop_take]
          congr 1
          omega
        · rw [List.take_take, List.length_take, List.length_drop]
          omega
      | succ n =>
        rw [List.getElem?_cons_succ] at hc hd
        exact ih S O (t.drop (S - O)) hO (by rw [List.length_drop]; omega) n c d hc hd

/-- Every window splitTextAux produces is a contiguous subwindow of the
input text. -/
theorem splitTextAux_window (fuel : Nat) :
    ∀ (S O : Nat) (t : List Char) (c : List Char), c ∈ splitTextAux fuel S O t →
      ∃ a, c = (t.drop a).take c.length := by
  induction fuel with
  | zero =>
    intro S O t c hc
    rw [splitTextAux_zero] at hc
    rw [List.mem_singleton] at hc
    subst hc
    exact ⟨0, by simp⟩
  | succ fuel ih =>
    intro S O t c hc
    rw [splitTextAux_succ] at hc
    by_cases h : t.length ≤ S
    · rw [if_pos h, List.mem_singleton] at hc
      subst hc
      exact ⟨0, by simp⟩
    · rw [if_neg h] at hc
      rcases List.mem_cons.mp hc with h1 | h2
      · subst h1
        refine ⟨0, ?_⟩
        rw [List.drop_zero, List.length_take]
        have e : S ⊓ t.length = S := by omega
        rw [e]
      · rcases ih S O (t.drop (S - O)) c h2 with ⟨a, ha⟩
        refine ⟨(S - O) + a, ?_⟩
        rw [← List.drop_drop]
        exact ha

/-- Every chunk splitDocuments produces comes from exactly one source
document: it carries that document's metadata and its text is one
contiguous window of that document's content. -/
theorem splitDocuments_window (S O : Nat) :
    ∀ (docs : List RawDocument) (c : Chunk), c ∈ splitDocuments S O docs →
      ∃ d, d ∈ docs ∧ c.metadata = d.metadata
        ∧ ∃ a, c.text = (d.content.drop a).take c.text.length := by
  intro docs
  induction docs with
  | nil =>
    intro c hc
    rw [splitDocuments_nil] at hc
    exact absurd hc (by simp)
  | cons dd rest ih =>
    intro c hc
    rw [splitDocuments_cons] at hc
    rcases List.mem_append.mp hc with h1 | h2
    · rcases List.mem_map.mp h1 with ⟨tx, htx, heq⟩
      subst heq
      rcases splitTextAux_window dd.content.length S O dd.content tx htx with ⟨a, ha⟩
      exact ⟨dd, List.mem_cons_self dd rest, rfl, a, ha⟩
    · rcases ih c h2 with ⟨dm, hmem, hmeta, hwin⟩
      exact ⟨dm, List.mem_cons_of_mem dd hmem, hmeta, hwin⟩

/-- Unfolding lemma: loading from a present local directory filters to
pdf files and loads each with per-file recovery. -/
theorem load_local_some (files : List (String × FileLoadResult)) :
    load_docs_from_local_folder (some files)
      = loadLocalFiles (files.filter (fun f => f.1.endsWith ".pdf")) := rfl

/-- Unfolding lemma: a missing local data directory loads nothing. -/
theorem load_local_none : load_docs_from_local_folder none = [] := rfl

/- ==================================================================
   Claim theorems.
   ================================================================== -/

/-- C1 (code_bug evaluation): the claim states that
create_index_if_not_exists creates exactly the field names the
retrieval engine's queries read. The code violates this: the mapping it
creates has top-level fields text, vector, text_expansion, metadata,
while the hybrid search request references vector_field, text_content
and elser_embedding_field — every field the retriever references is
absent from the created mapping. -/
theorem c1_mapping_retriever_field_mismatch :
    (buildSearchRequest embedZero "rag-internship-demo" 5 "hybrid" "q").referencedFields
      = ["vector_field", "text_content", "elser_embedding_field"]
    ∧ indexMappings.properties.map Prod.fst = ["text", "vector", "text_expansion", "metadata"]
    ∧ ((buildSearchRequest embedZero "rag-internship-demo" 5 "hybrid" "q").referencedFields.all
        (fun f => !((indexMappings.properties.map Prod.fst).contains f))) = true := by
  decide

/-- C2: for every query string, every mode and every failure raised by
the storage backend on the issued search, the retrieval operation
returns an empty list of passages; get_relevant_documents is a total
function into List Document, so no exception propagates to its
caller. -/
theorem c2_backend_error_yields_empty (backend : SearchRequest → Except String (List Hit))
    (embed : String → List Int) (indexName : String) (k : Nat) (mode query e : String)
    (h : backend (buildSearchRequest embed indexName k mode query) = Except.error e) :
    get_relevant_documents backend embed indexName k mode query = [] := by
  unfold get_relevant_documents
  rw [h]

/-- C2 witness: a backend failing with a connection error on every
request is observed as an empty passage list for a concrete hybrid
query. -/
theorem c2_backend_error_yields_empty_witness :
    get_relevant_documents backendFail embedZero "rag-internship-demo" 5 "hybrid" "q" = [] :=
  c2_backend_error_yields_empty backendFail embedZero "rag-internship-demo" 5 "hybrid" "q"
    "connection refused" rfl

/-- C3: in hybrid mode, for every query the engine issues one search
call composed of exactly three ranking components — a knn query on the
dense-vector field with candidate pool fixed at 50 independent of the
requested k, a lexical match on the text field, and a sparse
text-expansion query — fused by RRF with rank_constant 20 and
window_size 100, truncated to the final top k (size = k). -/
theorem c3_hybrid_query_shape (embed : String → List Int) (indexName : String)
    (k : Nat) (query : String) :
    buildSearchRequest embed indexName k "hybrid" query
      = hybridRequestSpec embed indexName k query := by
  unfold buildSearchRequest hybridRequestSpec
  rw [if_neg (by decide)]

/-- C4: in elser_only mode, for every query the engine issues exactly
one sparse text-expansion query requesting the top k documents, and the
issued search contains no knn component and no lexical match component
(both none in the request). -/
theorem c4_elser_only_query_shape (embed : String → List Int) (indexName : String)
    (k : Nat) (query : String) :
    buildSearchRequest embed indexName k "elser_only" query
      = elserOnlyRequestSpec indexName k query := by
  unfold buildSearchRequest elserOnlyRequestSpec
  rw [if_pos rfl]

/-- C5 (against the spec-modelled splitter): for chunk_size S and
chunk_overlap O with O < S, every pair of adjacent chunks derived from
one document shares exactly O characters (the first O characters of the
later chunk are the last O characters of the earlier one, whose length
is exactly S — only the final chunk of a document may be shorter than
S), and splitting never crosses document boundaries: every chunk is one
contiguous window of a single source document. -/
theorem c5_chunk_overlap (S O : Nat) (hO : O < S) :
    (∀ (t : List Char) (i : Nat) (c d : List Char),
        (splitText S O t)[i]? = some c → (splitText S O t)[i + 1]? = some d →
        c.length = S ∧ d.take O = c.drop (S - O) ∧ (d.take O).length = O)
    ∧ (∀ (docs : List RawDocument) (c : Chunk), c ∈ splitDocuments S O docs →
        ∃ d, d ∈ docs ∧ c.metadata = d.metadata
          ∧ ∃ a, c.text = (d.content.drop a).take c.text.length) := by
  constructor
  · intro t i c d hc hd
    exact splitTextAux_adjacent t.length S O t hO le_rfl i c d hc hd
  · intro docs c hc
    exact splitDocuments_window S O docs c hc

/-- C5 witness: with S = 3, O = 1 the text abcde splits into abc and
cde; the first window has length 3 and the two windows share exactly
the single character c. -/
theorem c5_chunk_overlap_witness :
    "abc".toList.length = 3
    ∧ "cde".toList.take 1 = "abc".toList.drop (3 - 1)
    ∧ ("cde".toList.take 1).length = 1 :=
  (c5_chunk_overlap 3 1 (by decide)).1 "abcde".toList 0 "abc".toList "cde".toList
    (by decide) (by decide)

/-- C6: within one ingestion run the chunk_id assigned to the i-th
chunk of the final concatenated chunk list is exactly i — hence the
chunk_id values are 0-based, unique and strictly increasing in
processing order; chunk_documents is a pure function of the input
document list, so the assignment is deterministic for a fixed input
order. -/
theorem c6_chunk_ids_sequential (S O : Nat) (docs : List RawDocument) :
    (∀ (i : Nat) (c : Chunk), (chunk_documents S O docs)[i]? = some c →
        mfind c.metadata "chunk_id" = some (MetaValue.nat i))
    ∧ (∀ (i j : Nat) (ci cj : Chunk), (chunk_documents S O docs)[i]? = some ci →
        (chunk_documents S O docs)[j]? = some cj → i < j →
        ∃ a b, mfind ci.metadata "chunk_id" = some (MetaValue.nat a)
          ∧ mfind cj.metadata "chunk_id" = some (MetaValue.nat b) ∧ a < b) := by
  have h1 : ∀ (i : Nat) (c : Chunk), (chunk_documents S O docs)[i]? = some c →
      mfind c.metadata "chunk_id" = some (MetaValue.nat i) := by
    intro i c hc
    unfold chunk_documents at hc
    rw [numberChunks_getElem (splitDocuments S O docs) 0 i] at hc
    rcases Option.map_eq_some'.mp hc with ⟨c0, hc0, hfc⟩
    subst hfc
    simp only [Nat.zero_add]
    exact chunkId_of_normalize i c0
  exact ⟨h1, fun i j ci cj hi hj hij => ⟨i, j, h1 i ci hi, h1 j cj hj, hij⟩⟩

/-- C6 witness: the first chunk produced from the concrete corpus docsW
carries chunk_id 0. -/
theorem c6_chunk_ids_sequential_witness :
    mfind chunkW.metadata "chunk_id" = some (MetaValue.nat 0) :=
  (c6_chunk_ids_sequential 3 1 docsW).1 0 chunkW (by decide)

/-- C7: index preparation is idempotent: whenever the index already
exists, create_index_if_not_exists leaves the cluster state unchanged
and issues no create or delete operation, and for every starting state
calling it twice is observationally equal to calling it once (the
second call is always a no-op). It is a total function, so it produces
no error. -/
theorem c7_create_index_idempotent (s : ESIndices) (name : String) :
    (indicesExists s name = true → create_index_if_not_exists s name = (s, []))
    ∧ create_index_if_not_exists (create_index_if_not_exists s name).1 name
        = ((create_index_if_not_exists s name).1, []) := by
  have hex : ∀ s2 : ESIndices, indicesExists s2 name = true →
      create_index_if_not_exists s2 name = (s2, []) := by
    intro s2 h
    unfold create_index_if_not_exists
    rw [if_pos h]
  refine ⟨hex s, ?_⟩
  apply hex
  unfold create_index_if_not_exists
  by_cases h : indicesExists s name = true
  · rw [if_pos h]
    exact h
  · rw [if_neg h]
    simp [indicesExists, List.any_append]

/-- C7 witness: creating the index against a state in which it already
exists changes nothing and issues no admin operation. -/
theorem c7_create_index_idempotent_witness :
    create_index_if_not_exists esW "rag-internship-demo" = (esW, []) :=
  (c7_create_index_idempotent esW "rag-internship-demo").1 (by decide)

/-- C8 counterexample: the chunk chunkNoSource carries a remote-file
identifier (file_id F123), yet after metadata normalization it has no
resource_url field (the code stores the synthesized url under the key
drive_url instead) and no filename field (filename is derived only when
a source path is present) — refuting the claim as stated. -/
theorem c8_metadata_counterexample :
    mfind chunkNoSource.metadata "file_id" = some (MetaValue.str "F123")
    ∧ mfind (normalizeChunk 0 chunkNoSource).metadata "resource_url" = none
    ∧ mfind (normalizeChunk 0 chunkNoSource).metadata "filename" = none := by
  decide

/-- C8 (amended): during metadata normalization, every chunk whose
metadata carries a local file path (key source) gets a filename field
equal to the basename of that path, and every chunk whose metadata
carries a remote-file identifier (key file_id) gets a drive_url field
— not resource_url — synthesized deterministically from that
identifier by pure string concatenation (no network call); a filename
is guaranteed only for chunks carrying a source path. -/
theorem c8_metadata_normalization (i : Nat) (c : Chunk) :
    (∀ s, mfind c.metadata "source" = some (MetaValue.str s) →
        mfind (normalizeChunk i c).metadata "filename"
          = some (MetaValue.str (basename s)))
    ∧ (∀ fid, mfind c.metadata "file_id" = some (MetaValue.str fid) →
        mfind (normalizeChunk i c).metadata "drive_url"
          = some (MetaValue.str ("https://docs.google.com/document/d/" ++ fid ++ "/"))) := by
  constructor
  · intro s hs
    have h1 : mfind (mset c.metadata "chunk_id" (MetaValue.nat i)) "source"
        = some (MetaValue.str s) := by
      rw [mfind_mset_ne _ _ _ _ (by decide)]
      exact hs
    unfold normalizeChunk
    rw [addFilename_of_source _ _ h1, addDriveUrl_preserves _ _ (by decide), mfind_mset_self]
  · intro fid hf
    have h1 : mfind (addFilename (mset c.metadata "chunk_id" (MetaValue.nat i))) "file_id"
        = some (MetaValue.str fid) := by
      rw [addFilename_preserves _ _ (by decide), mfind_mset_ne _ _ _ _ (by decide)]
      exact hf
    unfold normalizeChunk
    rw [addDriveUrl_of_file_id _ _ h1, mfind_mset_self]

/-- C8 witness: a chunk carrying both a source path and a file_id gets
filename b.pdf and the constructed drive url. -/
theorem c8_metadata_normalization_witness :
    mfind (normalizeChunk 2 chunkBoth).metadata "filename"
      = some (MetaValue.str (basename "dir/b.pdf"))
    ∧ mfind (normalizeChunk 2 chunkBoth).metadata "drive_url"
      = some (MetaValue.str ("https://docs.google.com/document/d/" ++ "F1" ++ "/")) :=
  ⟨(c8_metadata_normalization 2 chunkBoth).1 "dir/b.pdf" (by decide),
   (c8_metadata_normalization 2 chunkBoth).2 "F1" (by decide)⟩

/-- C9: loader failures are isolated: a file whose load raises is
skipped without affecting the documents loaded from the other files of
the local folder; a failing remote source leaves the local documents
untouched; a missing local directory leaves the remote documents
untouched; and when a source succeeds, all its documents are returned
alongside the others. -/
theorem c9_loader_failure_isolation :
    (∀ (files1 files2 : List (String × FileLoadResult)) (name e : String),
        load_docs_from_local_folder (some (files1 ++ (name, Except.error e) :: files2))
          = load_docs_from_local_folder (some (files1 ++ files2)))
    ∧ (∀ (dir : Option (List (String × FileLoadResult))) (creds : Bool) (e : String),
        loadAllDocs dir creds (Except.error e) = load_docs_from_local_folder dir)
    ∧ (∀ (creds : Bool) (g : FileLoadResult),
        loadAllDocs none creds g = load_docs_from_gdrive creds g)
    ∧ (∀ (dir : Option (List (String × FileLoadResult))) (ds : List RawDocument),
        loadAllDocs dir true (Except.ok ds) = load_docs_from_local_folder dir ++ ds) := by
  refine ⟨?_, ?_, ?_, ?_⟩
  · intro files1 files2 name e
    rw [load_local_some, load_local_some, List.filter_append, List.filter_append,
      List.filter_cons]
    split
    · rw [loadLocalFiles_append, loadLocalFiles_append]
      simp [loadLocalFiles]
    · rfl
  · intro dir creds e
    unfold loadAllDocs
    cases creds <;> simp [load_docs_from_gdrive]
  · intro creds g
    unfold loadAllDocs
    rw [load_local_none]
    simp
  · intro dir ds
    unfold loadAllDocs
    simp [load_docs_from_gdrive]

/-- C10 (implicit): the retriever's mode dispatch is an equality test
against the exact string elser_only — every other mode value executes
the full hybrid three-signal query with no rejection and no error — and
the bundled UI's mode_map sends the string elser (not elser_only) for
its ELSER-only option, which therefore lands in the hybrid branch. -/
theorem c10_mode_dispatch (embed : String → List Int) (indexName : String)
    (k : Nat) (query mode : String) (h : mode ≠ "elser_only") :
    buildSearchRequest embed indexName k mode query
      = hybridRequestSpec embed indexName k query
    ∧ List.lookup "ELSER-only" mode_map = some "elser" := by
  constructor
  · unfold buildSearchRequest hybridRequestSpec
    rw [if_neg h]
  · rfl

/-- C10 witness: the UI mode string elser is not elser_only, and the
request issued for it is the full hybrid request. -/
theorem c10_mode_dispatch_witness :
    buildSearchRequest embedZero "rag-internship-demo" 5 "elser" "q"
      = hybridRequestSpec embedZero "rag-internship-demo" 5 "q" :=
  (c10_mode_dispatch embedZero "rag-internship-demo" 5 "q" "elser" (by decide)).1

end RagCore
